import Mathlib

/-!
Shallow embedding of the NL2SQL repository (src/app.py, src/main.py).

The repository has three functions with algorithmic content:
  - `is_ambiguous` (app.py): a lexical classifier deciding whether a
    natural-language question is too vague for SQL generation;
  - `write_query` (app.py): wraps an external model call with
    post-validation and exception-to-envelope conversion;
  - `execute_query` (app.py): wraps an external database call with
    exception-to-envelope conversion;
together with the CLI entry point `main` (main.py).

Strings are modelled as `List Char` (Lean `String.data`); the Python
regular-expression searches of `is_ambiguous` are embedded as explicit
scanning functions over the character list, restricted to the ASCII
fragment the fixed patterns of the source use.  The external model and
the external relational store are opaque collaborators; their behaviour
at a call site is a parameter (`ModelBehavior`, `StoreBehavior`): either
they raise an exception carrying some text, or they return a value.
-/

namespace NL2SQL

/-! ### Character classes (ASCII fragment of Python `str`/`re` semantics)

`isWs` embeds the whitespace class used both by Python `str.split()` and
by the regex class `\s` (ASCII part): space, tab, newline, carriage
return, vertical tab, form feed.  `isWordChar` embeds the regex class
`\w` (ASCII part): letters, digits, underscore.  `isDigitCh` embeds
`\d` (ASCII part). -/

def isWs (c : Char) : Bool :=
  c.toNat = 32 || c.toNat = 9 || c.toNat = 10 || c.toNat = 13 || c.toNat = 11 || c.toNat = 12

def isWordChar (c : Char) : Bool :=
  (97 ≤ c.toNat && c.toNat ≤ 122) || (65 ≤ c.toNat && c.toNat ≤ 90) ||
  (48 ≤ c.toNat && c.toNat ≤ 57) || c.toNat = 95

def isDigitCh (c : Char) : Bool :=
  48 ≤ c.toNat && c.toNat ≤ 57

/-- Embedding of Python `str.lower()` on the ASCII fragment: uppercase
ASCII letters are shifted down by 32, every other character is kept. -/
def lowerChar (c : Char) : Char :=
  if 65 ≤ c.toNat && c.toNat ≤ 90 then Char.ofNat (c.toNat + 32) else c

def lowerL (l : List Char) : List Char :=
  l.map lowerChar

/-! ### Python `len(text.split())`

`str.split()` with no argument splits on runs of whitespace and drops
empty pieces, so its length is the number of maximal non-whitespace
runs. -/

def wordCountAux : List Char → Bool → Nat
  | [], _ => 0
  | c :: rest, inWord =>
    if isWs c then wordCountAux rest false
    else (if inWord then 0 else 1) + wordCountAux rest true

def wordCount (l : List Char) : Nat :=
  wordCountAux l false

/-! ### Generic regex-search scaffolding

A Python `re.search` succeeds when the pattern matches at some position
of the text.  `scanFrom p prev l` tries the position-matcher `p` at
every suffix of `l`; `prev` is the character immediately before the
current suffix (`none` at the start of the text), which is what the
word-boundary assertion `\b` needs to inspect. -/

def scanFrom (p : Option Char → List Char → Bool) : Option Char → List Char → Bool
  | _, [] => false
  | prev, c :: rest => p prev (c :: rest) || scanFrom p (some c) rest

/-- `startsWithL t l` : the text `l` starts with the literal `t`. -/
def startsWithL : List Char → List Char → Bool
  | [], _ => true
  | _ :: _, [] => false
  | a :: as, b :: bs => a = b && startsWithL as bs

/-- The `\b` assertion placed after a pattern ending in a word
character: the next character must be absent or a non-word character. -/
def afterOk : List Char → Bool
  | [] => true
  | c :: _ => !isWordChar c

/-- The `\b` assertion placed before a pattern beginning with a word
character: the previous character must be absent or a non-word
character. -/
def prevOkB : Option Char → Bool
  | none => true
  | some c => !isWordChar c

/-- Position matcher for `re.search(rf"\b{t}\b", text)` where the term
`t` is a fixed alphabetic word (every term of the source is). -/
def matchWordAt (t : List Char) (prev : Option Char) (l : List Char) : Bool :=
  prevOkB prev && startsWithL t l && afterOk (l.drop t.length)

def containsWord (t l : List Char) : Bool :=
  scanFrom (matchWordAt t) none l

/-- Embedding of Python substring containment `t in text`. -/
def containsSub (t : List Char) : List Char → Bool
  | [] => startsWithL t []
  | c :: rest => startsWithL t (c :: rest) || containsSub t rest

/-! ### The fixed term lists of `is_ambiguous` (app.py lines 51, 61-65) -/

def vagueTermsL : List (List Char) :=
  ["best".data, "top".data, "most".data, "highest".data, "lowest".data,
   "biggest".data, "popular".data, "trending".data, "leading".data, "fastest".data]

def metricTermsL : List (List Char) :=
  ["revenue".data, "sales".data, "profit".data, "spend".data, "order value".data,
   "aov".data, "margin".data, "gmv".data, "units".data, "quantity".data,
   "orders".data, "growth".data, "grew".data, "increase".data, "decrease".data,
   "rate".data, "avg".data, "average".data, "mean".data]

/-- `contains_vague` (app.py line 52): some vague term occurs as a whole
word. -/
def containsVague (l : List Char) : Bool :=
  vagueTermsL.any (fun t => containsWord t l)

/-- `has_metric_term` (app.py lines 61-65): some metric term occurs as a
plain substring (`m in text`). -/
def hasMetricTerm (l : List Char) : Bool :=
  metricTermsL.any (fun m => containsSub m l)

/-! ### `has_by_clause` : `re.search(r"\bby\s+[\w\- ]{2,}", text)` -/

/-- The character class `[\w\- ]`. -/
def classChar (c : Char) : Bool :=
  isWordChar c || c = '-' || c = ' '

/-- `[\w\- ]{2,}` succeeds when at least two class characters follow. -/
def twoClass : List Char → Bool
  | a :: b :: _ => classChar a && classChar b
  | _ => false

/-- `\s+[\w\- ]{2,}` with backtracking: after one or more whitespace
characters, two class characters follow. -/
def byAfterWs : List Char → Bool
  | [] => false
  | c :: rest => isWs c && (twoClass rest || byAfterWs rest)

def byMatchAt (prev : Option Char) (l : List Char) : Bool :=
  prevOkB prev && startsWithL "by".data l && byAfterWs (l.drop 2)

def hasByClause (l : List Char) : Bool :=
  scanFrom byMatchAt none l

/-! ### `has_numeric_limit` :
`re.search(r"\b(?:top|best|bottom|highest|lowest|fastest)\s+\d+\b", text)` -/

def numLimitWordsL : List (List Char) :=
  ["top".data, "best".data, "bottom".data, "highest".data, "lowest".data, "fastest".data]

/-- `\d+\b` on a digit run: at least one digit, and the character after
the maximal digit run (digits are word characters, so backtracking
cannot stop earlier) is absent or a non-word character. -/
def digitsTail : List Char → Bool
  | [] => true
  | c :: rest => if isDigitCh c then digitsTail rest else !isWordChar c

def digitsThenBoundary : List Char → Bool
  | [] => false
  | c :: rest => isDigitCh c && digitsTail rest

/-- `\s+\d+\b` with backtracking over the whitespace run. -/
def wsThenDigits : List Char → Bool
  | [] => false
  | c :: rest => isWs c && (digitsThenBoundary rest || wsThenDigits rest)

def numMatchAt (prev : Option Char) (l : List Char) : Bool :=
  prevOkB prev &&
    numLimitWordsL.any (fun w => startsWithL w l && wsThenDigits (l.drop w.length))

def hasNumericLimit (l : List Char) : Bool :=
  scanFrom numMatchAt none l

/-! ### `has_time_context` (app.py lines 66-71), a VERBOSE regex with
four alternatives. -/

/-- Alternative 1: `\b(20\d{2})\b`. -/
def yearAt (prev : Option Char) (l : List Char) : Bool :=
  prevOkB prev &&
    match l with
    | '2' :: '0' :: d1 :: d2 :: rest => isDigitCh d1 && isDigitCh d2 && afterOk rest
    | _ => false

/-- `20\d{2}\b`, the tail of alternative 2. -/
def yearCore : List Char → Bool
  | '2' :: '0' :: d1 :: d2 :: rest => isDigitCh d1 && isDigitCh d2 && afterOk rest
  | _ => false

/-- `\s*20\d{2}\b`: zero or more whitespace characters, then a year. -/
def wsStarYear : List Char → Bool
  | [] => false
  | c :: rest => yearCore (c :: rest) || (isWs c && wsStarYear rest)

/-- Alternative 2: `\bq[1-4]\s*20\d{2}\b` (the text is lower-cased, so
the IGNORECASE flag adds nothing). -/
def qYearAt (prev : Option Char) (l : List Char) : Bool :=
  prevOkB prev &&
    match l with
    | 'q' :: d :: rest => (d = '1' || d = '2' || d = '3' || d = '4') && wsStarYear rest
    | _ => false

def lptWordsL : List (List Char) :=
  ["last".data, "past".data, "this".data]

def periodWordsL : List (List Char) :=
  ["year".data, "quarter".data, "month".data, "week".data, "day".data]

def pluralPeriodsL : List (List Char) :=
  ["days".data, "weeks".data, "months".data, "years".data]

/-- A fixed word followed by the closing `\b`. -/
def wordThenBoundary (w l : List Char) : Bool :=
  startsWithL w l && afterOk (l.drop w.length)

def pluralsAt (l : List Char) : Bool :=
  pluralPeriodsL.any (fun w => wordThenBoundary w l)

/-- `\s+(days|weeks|months|years)\b` with backtracking. -/
def wsThenPlural : List Char → Bool
  | [] => false
  | c :: rest => isWs c && (pluralsAt rest || wsThenPlural rest)

/-- The tail of `\d+\s+(days|weeks|months|years)\b` after the first
digit: consume the rest of the digit run, then whitespace, then a
plural period word. -/
def numPeriodRest : List Char → Bool
  | [] => false
  | c :: rest => if isDigitCh c then numPeriodRest rest else wsThenPlural (c :: rest)

/-- `\d+\s+(days|weeks|months|years)\b`. -/
def numPeriod : List Char → Bool
  | [] => false
  | c :: rest => isDigitCh c && numPeriodRest (c :: rest)

/-- The inner alternation
`(year|quarter|month|week|day|\d+\s+(days|weeks|months|years))\b`. -/
def innerPeriodAlt (l : List Char) : Bool :=
  periodWordsL.any (fun w => wordThenBoundary w l) || numPeriod l

/-- `\s+(inner alternation)` with backtracking. -/
def wsThenInner : List Char → Bool
  | [] => false
  | c :: rest => isWs c && (innerPeriodAlt rest || wsThenInner rest)

/-- Alternative 3: `\b(last|past|this)\s+(year|...|\d+\s+(days|...))\b`. -/
def relPeriodAt (prev : Option Char) (l : List Char) : Bool :=
  prevOkB prev &&
    lptWordsL.any (fun w => startsWithL w l && wsThenInner (l.drop w.length))

/-- `[-\s]?` before a continuation `k`: the continuation matches here,
or one dash/whitespace character is consumed first. -/
def optSep (k : List Char → Bool) : List Char → Bool
  | [] => k []
  | c :: rest => k (c :: rest) || ((c = '-' || isWs c) && k rest)

/-- Alternative 4: `\bmonth[-\s]?over[-\s]?month\b`. -/
def momAt (prev : Option Char) (l : List Char) : Bool :=
  prevOkB prev && startsWithL "month".data l &&
    optSep (fun l2 => startsWithL "over".data l2 &&
      optSep (fun l3 => startsWithL "month".data l3 && afterOk (l3.drop 5)) (l2.drop 4))
      (l.drop 5)

def timeMatchAt (prev : Option Char) (l : List Char) : Bool :=
  yearAt prev l || qYearAt prev l || relPeriodAt prev l || momAt prev l

def hasTimeContext (l : List Char) : Bool :=
  scanFrom timeMatchAt none l

/-! ### `is_ambiguous` (app.py lines 25-75) -/

/-- Embedding of `is_ambiguous(question)` (app.py lines 25-75): the
question is lower-cased; if it has fewer than 4 whitespace-tokenized
words the verdict is `true`; otherwise, if no vague/ranking term occurs
as a whole word the verdict is `false`; otherwise the verdict is `true`
exactly when none of the four clarifiers (metric term, by-clause,
numeric limit, time context) is found. -/
def is_ambiguous (question : String) : Bool :=
  let text := lowerL question.data
  let min_word_count := 4
  if wordCount text < min_word_count then true
  else
    let contains_vague := containsVague text
    if contains_vague = false then false
    else
      let has_by_clause := hasByClause text
      let has_numeric_limit := hasNumericLimit text
      let has_metric_term := hasMetricTerm text
      let has_time_context := hasTimeContext text
      let has_clarity := has_metric_term || has_by_clause || has_numeric_limit || has_time_context
      !has_clarity

/-! ### The query pipeline (app.py lines 77-149, main.py lines 4-36)

The external model call (`chain.invoke`) and the external store call
(`db.run`) are black boxes; the behaviour each exhibits at a call site
is passed in as a parameter.  A Python `dict` returned by the JSON
parser is modelled by the value of its `"SQL"` key (a string, when the
key is present) together with its remaining key/value pairs, which
`write_query` never inspects. -/

/-- The parsed model output: the value of the `"SQL"` key if present,
plus the remaining (uninspected) key/value pairs of the object. -/
structure ModelOutput where
  sql : Option String
  rest : List (String × String)
deriving DecidableEq

/-- Behaviour of the external model collaborator at one invocation:
`chain.invoke` either raises an exception whose `str(e)` is `e`, or
returns a parsed object. -/
inductive ModelBehavior where
  | raises (e : String)
  | returns (r : ModelOutput)
deriving DecidableEq

/-- Return value of `write_query`: either the model's object returned
unchanged, or the error envelope `\x7b"error": True, "message": m\x7d`. -/
inductive WqResult where
  | ok (r : ModelOutput)
  | err (message : String)
deriving DecidableEq

/-- The clarification message of app.py lines 110-112 (the result of
Python adjacent-literal concatenation; the apostrophe in the source is
the typographic U+2019). -/
def clarificationMessage : String :=
  "Your question seems a bit unclear. Could you please specify what metric or time period you\u2019re interested in?"

/-- The exception envelope message of app.py lines 119-122 applied to
the exception text `e`. -/
def rephraseMessage (e : String) : String :=
  "Unable to generate a valid SQL query due to: " ++ e ++ ". Please rephrase your question or provide more details."

/-- `str(e)` for the Python `KeyError("SQL")` raised by `result["SQL"]`
when the key is absent: the repr of the key, `'SQL'`. -/
def keyErrorText : String :=
  "\x27SQL\x27"

/-- Embedding of `write_query(question)` (app.py lines 77-123).  The
first component is the returned dictionary; the second component counts
the invocations of the external model collaborator performed by the
call — the source invokes `chain.invoke` unconditionally, exactly once,
on every path (also when the invocation itself raises), so the count is
`1` in both branches.  A missing `"SQL"` key makes `result["SQL"]`
raise `KeyError("SQL")`, which the `except` clause converts to the
rephrase envelope; an empty or shorter-than-3-token SQL string is
converted to the clarification envelope; otherwise the object is
returned unchanged. -/
def write_query (question : String) (model : ModelBehavior) : WqResult × Nat :=
  (match model with
   | ModelBehavior.raises e => WqResult.err (rephraseMessage e)
   | ModelBehavior.returns r =>
     match r.sql with
     | none => WqResult.err (rephraseMessage keyErrorText)
     | some s =>
       if s = "" ∨ wordCount s.data < 3 then WqResult.err clarificationMessage
       else WqResult.ok r
   , 1)

/-- Behaviour of the external relational store at one invocation:
`db.run(sql)` either raises an exception whose `str(e)` is `e`, or
returns a raw result string. -/
inductive StoreBehavior where
  | raises (e : String)
  | returns (r : String)
deriving DecidableEq

/-- Return value of `execute_query`: either the dictionary
`\x7b"result": r\x7d` wrapping the raw store result, or the error
envelope `\x7b"error": True, "message": m\x7d`. -/
inductive ExecResult where
  | ok (result : String)
  | err (message : String)
deriving DecidableEq

/-- The exception envelope message of app.py lines 145-148 applied to
the exception text `e`. -/
def execFailMessage (e : String) : String :=
  "Query execution failed: " ++ e ++ ". Please check if your question references valid columns or tables."

/-- Embedding of `execute_query(sql)` (app.py lines 125-149). -/
def execute_query (sql : String) (store : StoreBehavior) : ExecResult :=
  match store with
  | StoreBehavior.returns r => ExecResult.ok r
  | StoreBehavior.raises e => ExecResult.err (execFailMessage e)

/-- Outcome of one CLI run: either the printed structures (the
`write_query` result, and the `execute_query` result when `--execute`
was given), or an exception propagating uncaught out of `main`. -/
inductive CliOutcome where
  | prints (sqlOut : WqResult) (execOut : Option ExecResult)
  | uncaught (exn : String)
deriving DecidableEq

/-- The uncaught Python exception raised by `sql_output["SQL"]`
(main.py line 32) when the dictionary has no `"SQL"` key. -/
def keyErrorSQL : String :=
  "KeyError: " ++ keyErrorText

/-- The subscript `sql_output["SQL"]` of main.py line 32: the string
under the `"SQL"` key, or a `KeyError` — an error envelope has only the
keys `"error"` and `"message"`. -/
def wqGetSQL : WqResult → Except String String
  | WqResult.ok r =>
    match r.sql with
    | some s => Except.ok s
    | none => Except.error keyErrorSQL
  | WqResult.err _ => Except.error keyErrorSQL

/-- Embedding of `main()` (main.py lines 4-36) after argument parsing:
`question` and `executeFlag` are the parsed CLI arguments, and the two
behaviour parameters describe the external collaborators at this run's
call sites. -/
def main (question : String) (executeFlag : Bool)
    (model : ModelBehavior) (store : StoreBehavior) : CliOutcome :=
  let sql_output := (write_query question model).1
  if executeFlag then
    match wqGetSQL sql_output with
    | Except.ok s => CliOutcome.prints sql_output (some (execute_query s store))
    | Except.error e => CliOutcome.uncaught e
  else
    CliOutcome.prints sql_output none

/-! ### Declarative companions used to characterise the searches -/

/-- The character standing immediately before the suffix obtained by
stripping `pre`, when the character before `pre` itself was `prev`. -/
def lastCh (prev : Option Char) (pre : List Char) : Option Char :=
  match pre.getLast? with
  | some c => some c
  | none => prev

/-- Declarative whole-word occurrence: the term `t` occurs in `l` with
no word character immediately before or after it. -/
def OccursWholeWord (t l : List Char) : Prop :=
  ∃ pre post, l = pre ++ t ++ post ∧
    (∀ c, pre.getLast? = some c → isWordChar c = false) ∧
    (∀ c, post.head? = some c → isWordChar c = false)

end NL2SQL

namespace NL2SQL

/-! ## Helper lemmas -/

theorem toNat_ofNat_valid (n : Nat) (h : n < 55296) : (Char.ofNat n).toNat = n := by
  unfold Char.ofNat
  rw [dif_pos (Or.inl h)]
  rfl

theorem isWs_false_of_letterRange (c : Char) (h1 : 65 ≤ c.toNat) (h2 : c.toNat ≤ 122) :
    isWs c = false := by
  unfold isWs
  simp only [Bool.or_eq_false_iff, decide_eq_false_iff_not]
  omega

theorem isWs_lowerChar (c : Char) : isWs (lowerChar c) = isWs c := by
  unfold lowerChar
  by_cases h : (65 ≤ c.toNat && c.toNat ≤ 90) = true
  · rw [if_pos h]
    simp only [Bool.and_eq_true, decide_eq_true_eq] at h
    have hv : (Char.ofNat (c.toNat + 32)).toNat = c.toNat + 32 :=
      toNat_ofNat_valid _ (by omega)
    rw [isWs_false_of_letterRange _ (by omega) (by rw [hv]; omega),
        isWs_false_of_letterRange c (by omega) (by omega)]
  · rw [if_neg h]

theorem wordCountAux_lower (l : List Char) : ∀ b, wordCountAux (lowerL l) b = wordCountAux l b := by
  induction l with
  | nil => intro b; rfl
  | cons c rest ih =>
    intro b
    simp only [lowerL, List.map_cons] at *
    simp only [wordCountAux]
    rw [isWs_lowerChar]
    by_cases h : isWs c = true
    · rw [if_pos h, if_pos h]
      exact ih false
    · rw [if_neg h, if_neg h, ih true]

theorem wordCount_lower (l : List Char) : wordCount (lowerL l) = wordCount l :=
  wordCountAux_lower l false

theorem lastCh_nil (prev : Option Char) : lastCh prev [] = prev := rfl

theorem lastCh_cons (prev : Option Char) (c : Char) (pre : List Char) :
    lastCh prev (c :: pre) = lastCh (some c) pre := by
  cases pre with
  | nil => rfl
  | cons d ds =>
    simp only [lastCh, List.getLast?_cons_cons]
    cases h : (d :: ds).getLast? with
    | none => exact absurd h (by simp)
    | some e => rfl

theorem lastCh_none (pre : List Char) : lastCh none pre = pre.getLast? := by
  cases h : pre.getLast? with
  | none => simp [lastCh, h]
  | some c => simp [lastCh, h]

/-- A `re.search` succeeds exactly when the position matcher succeeds at
some split of the text, the matcher seeing the character just before the
split point. -/
theorem scanFrom_iff (p : Option Char → List Char → Bool) (h0 : ∀ q, p q [] = false) :
    ∀ (prev : Option Char) (l : List Char),
      scanFrom p prev l = true ↔
        ∃ pre post, l = pre ++ post ∧ p (lastCh prev pre) post = true := by
  intro prev l
  induction l generalizing prev with
  | nil =>
    simp only [scanFrom]
    constructor
    · intro h
      exact absurd h (by simp)
    · rintro ⟨pre, post, hl, hp⟩
      rcases List.append_eq_nil.mp hl.symm with ⟨h1, h2⟩
      subst h1
      subst h2
      rw [lastCh_nil, h0] at hp
      exact absurd hp (by simp)
  | cons c rest ih =>
    simp only [scanFrom, Bool.or_eq_true]
    constructor
    · rintro (h | h)
      · exact ⟨[], c :: rest, rfl, by rwa [lastCh_nil]⟩
      · rcases (ih (some c)).mp h with ⟨pre, post, hl, hp⟩
        refine ⟨c :: pre, post, by rw [hl]; rfl, ?_⟩
        rwa [lastCh_cons]
    · rintro ⟨pre, post, hl, hp⟩
      cases pre with
      | nil =>
        left
        rw [lastCh_nil] at hp
        simp only [List.nil_append] at hl
        rwa [hl]
      | cons d pre' =>
        right
        simp only [List.cons_append] at hl
        injection hl with h1 h2
        subst h1
        apply (ih (some c)).mpr
        refine ⟨pre', post, h2, ?_⟩
        rwa [lastCh_cons] at hp

theorem startsWithL_iff (t : List Char) : ∀ l, startsWithL t l = true ↔ ∃ post, l = t ++ post := by
  induction t with
  | nil =>
    intro l
    simp [startsWithL]
  | cons a as ih =>
    intro l
    cases l with
    | nil =>
      simp only [startsWithL]
      constructor
      · intro h; exact absurd h (by simp)
      · rintro ⟨post, h⟩
        exact absurd h (by simp)
    | cons b bs =>
      simp only [startsWithL, Bool.and_eq_true, decide_eq_true_eq]
      constructor
      · rintro ⟨rfl, h⟩
        rcases (ih bs).mp h with ⟨post, rfl⟩
        exact ⟨post, rfl⟩
      · rintro ⟨post, h⟩
        simp only [List.cons_append] at h
        injection h with h1 h2
        exact ⟨h1.symm, (ih bs).mpr ⟨post, h2⟩⟩

theorem matchWordAt_iff (t : List Char) (q : Option Char) (l : List Char) :
    matchWordAt t q l = true ↔
      prevOkB q = true ∧ ∃ post, l = t ++ post ∧ afterOk post = true := by
  unfold matchWordAt
  simp only [Bool.and_eq_true]
  constructor
  · rintro ⟨⟨h1, h2⟩, h3⟩
    rcases (startsWithL_iff t l).mp h2 with ⟨post, rfl⟩
    rw [List.drop_left] at h3
    exact ⟨h1, post, rfl, h3⟩
  · rintro ⟨h1, post, rfl, h3⟩
    exact ⟨⟨h1, (startsWithL_iff t _).mpr ⟨post, rfl⟩⟩, by rwa [List.drop_left]⟩

theorem prevOkB_iff (o : Option Char) :
    prevOkB o = true ↔ ∀ c, o = some c → isWordChar c = false := by
  cases o with
  | none => simp [prevOkB]
  | some c => simp [prevOkB]

theorem afterOk_iff (l : List Char) :
    afterOk l = true ↔ ∀ c, l.head? = some c → isWordChar c = false := by
  cases l with
  | nil => simp [afterOk]
  | cons c rest => simp [afterOk]

/-- The whole-word search of the source (`re.search(rf"\b{t}\b", text)`
for an alphabetic term `t`) succeeds exactly on declarative whole-word
occurrences. -/
theorem containsWord_iff (t : List Char) (ht : t ≠ []) (l : List Char) :
    containsWord t l = true ↔ OccursWholeWord t l := by
  have h0 : ∀ q, matchWordAt t q [] = false := by
    intro q
    cases t with
    | nil => exact absurd rfl ht
    | cons a as => simp [matchWordAt, startsWithL]
  unfold containsWord
  rw [scanFrom_iff (matchWordAt t) h0 none l]
  constructor
  · rintro ⟨pre, mid, hl, hp⟩
    rw [matchWordAt_iff] at hp
    rcases hp with ⟨h1, post, rfl, h3⟩
    refine ⟨pre, post, by rw [hl, List.append_assoc], ?_, ?_⟩
    · rw [lastCh_none] at h1
      exact fun c hc => (prevOkB_iff _).mp h1 c hc
    · exact fun c hc => (afterOk_iff _).mp h3 c hc
  · rintro ⟨pre, post, hl, hpre, hpost⟩
    refine ⟨pre, t ++ post, by rw [hl, List.append_assoc], ?_⟩
    rw [matchWordAt_iff]
    refine ⟨?_, post, rfl, (afterOk_iff _).mpr hpost⟩
    rw [lastCh_none]
    exact (prevOkB_iff _).mpr hpre

/-- Python substring containment succeeds exactly on infix
decompositions. -/
theorem containsSub_iff (t : List Char) : ∀ l, containsSub t l = true ↔ ∃ pre post, l = pre ++ t ++ post := by
  intro l
  induction l with
  | nil =>
    simp only [containsSub]
    constructor
    · intro h
      cases t with
      | nil => exact ⟨[], [], rfl⟩
      | cons a as => exact absurd h (by simp [startsWithL])
    · rintro ⟨pre, post, h⟩
      rcases List.append_eq_nil.mp h.symm with ⟨h1, h2⟩
      rcases List.append_eq_nil.mp h1 with ⟨h3, h4⟩
      subst h4
      rfl
  | cons c rest ih =>
    simp only [containsSub, Bool.or_eq_true]
    constructor
    · rintro (h | h)
      · rcases (startsWithL_iff t _).mp h with ⟨post, hp⟩
        exact ⟨[], post, by simpa using hp⟩
      · rcases ih.mp h with ⟨pre, post, hp⟩
        exact ⟨c :: pre, post, by simp [hp]⟩
    · rintro ⟨pre, post, hp⟩
      cases pre with
      | nil =>
        left
        exact (startsWithL_iff t _).mpr ⟨post, by simpa using hp⟩
      | cons d pre' =>
        right
        simp only [List.cons_append, List.append_assoc] at hp
        injection hp with h1 h2
        exact ih.mpr ⟨pre', post, by simp [h2]⟩

/-! ## Claim theorems -/

/-- C1: the claim says that for a question `is_ambiguous` judges
ambiguous, `write_query` (as invoked from the CLI) performs zero model
invocations.  The code has no such short-circuit: `is_ambiguous` is
never called anywhere, and `write_query` invokes the external model
collaborator exactly once for every question and every collaborator
behaviour — also for the ambiguous question
`"who are our best customers"`. -/
theorem c1_ambiguous_question_still_invokes_model :
    is_ambiguous "who are our best customers" = true ∧
    ∀ mb : ModelBehavior, (write_query "who are our best customers" mb).2 = 1 :=
  ⟨by decide, fun _ => rfl⟩

/-- C2, counterexample: `"hi"` contains none of the ten vague/ranking
terms as a whole word, yet `is_ambiguous` returns `true` (the length
gate fires before the vagueness gate), refuting "returns false
regardless of the question's length ... including questions with fewer
than 4 words". -/
theorem c2_short_question_without_vague_term :
    containsVague (lowerL ("hi").data) = false ∧ is_ambiguous "hi" = true := by
  refine ⟨by decide, by decide⟩

/-- C2, amended: for every question with at least 4 whitespace-tokenized
words containing none of the ten vague/ranking terms as a whole word,
`is_ambiguous` returns `false`; questions with fewer than 4 words
return `true` regardless of content. -/
theorem c2_no_vague_term_not_ambiguous (s : String) (h : 4 ≤ wordCount s.data)
    (hv : containsVague (lowerL s.data) = false) : is_ambiguous s = false := by
  simp only [is_ambiguous]
  rw [wordCount_lower, if_neg (by omega), if_pos hv]

/-- C2, witness for the amended theorem at a concrete input. -/
theorem c2_no_vague_term_not_ambiguous_witness :
    4 ≤ wordCount ("show all customers from berlin").data ∧
    containsVague (lowerL ("show all customers from berlin").data) = false ∧
    is_ambiguous "show all customers from berlin" = false :=
  ⟨by decide, by decide,
    c2_no_vague_term_not_ambiguous "show all customers from berlin" (by decide) (by decide)⟩

/-- C3: for every question with at least 4 whitespace-tokenized words,
`is_ambiguous` returns `true` exactly when a vague/ranking term occurs
as a whole word and none of the four clarifiers (metric term,
by-clause, numeric limit, time context) matched. -/
theorem c3_vague_iff_no_clarifier (s : String) (h : 4 ≤ wordCount s.data) :
    is_ambiguous s = true ↔
      (containsVague (lowerL s.data) = true ∧ hasMetricTerm (lowerL s.data) = false ∧
       hasByClause (lowerL s.data) = false ∧ hasNumericLimit (lowerL s.data) = false ∧
       hasTimeContext (lowerL s.data) = false) := by
  simp only [is_ambiguous]
  rw [wordCount_lower, if_neg (by omega)]
  by_cases hv : containsVague (lowerL s.data) = false
  · rw [if_pos hv]
    simp [hv]
  · rw [if_neg hv]
    have hv' : containsVague (lowerL s.data) = true := by
      revert hv
      cases containsVague (lowerL s.data) <;> simp
    cases hm : hasMetricTerm (lowerL s.data) <;>
      cases hb : hasByClause (lowerL s.data) <;>
        cases hn : hasNumericLimit (lowerL s.data) <;>
          cases htc : hasTimeContext (lowerL s.data) <;>
            simp [hv', hm, hb, hn, htc]

/-- C3, witness: `"who are our best customers"` has 5 words, and the
equivalence evaluates there (the verdict is `true`: the vague term
`best` is present and no clarifier matches). -/
theorem c3_vague_iff_no_clarifier_witness :
    4 ≤ wordCount ("who are our best customers").data ∧
    (is_ambiguous "who are our best customers" = true ↔
      (containsVague (lowerL ("who are our best customers").data) = true ∧
       hasMetricTerm (lowerL ("who are our best customers").data) = false ∧
       hasByClause (lowerL ("who are our best customers").data) = false ∧
       hasNumericLimit (lowerL ("who are our best customers").data) = false ∧
       hasTimeContext (lowerL ("who are our best customers").data) = false)) :=
  ⟨by decide, c3_vague_iff_no_clarifier "who are our best customers" (by decide)⟩

/-- C4: the claim says no raw exception reaches the CLI boundary, and
in particular that with `--execute` set the access `sql_output["SQL"]`
does not fault when `write_query` returned an error envelope.  The code
faults there: when the model call raises, `write_query` returns the
error envelope (which has no `"SQL"` key), and `main` with
`--execute` then raises an uncaught `KeyError`, for every behaviour of
the store. -/
theorem c4_execute_on_envelope_raises_keyerror :
    (write_query "show all customer rows" (ModelBehavior.raises "boom")).1 =
      WqResult.err (rephraseMessage "boom") ∧
    ∀ sb : StoreBehavior,
      main "show all customer rows" true (ModelBehavior.raises "boom") sb =
        CliOutcome.uncaught keyErrorSQL :=
  ⟨rfl, fun _ => rfl⟩

/-- C5: `write_query` never raises — for every question and every model
behaviour the embedding is total and returns either an object with a
string `SQL` field or an error envelope; and when the external call
raises with text `e`, the envelope's message embeds `e` between the
fixed prefix and the rephrase prompt. -/
theorem c5_write_query_total_shape :
    (∀ (q : String) (mb : ModelBehavior),
        (∃ r s, (write_query q mb).1 = WqResult.ok r ∧ r.sql = some s) ∨
        (∃ m, (write_query q mb).1 = WqResult.err m)) ∧
    (∀ (q e : String),
        (write_query q (ModelBehavior.raises e)).1 = WqResult.err (rephraseMessage e)) := by
  constructor
  · intro q mb
    cases mb with
    | raises e => exact Or.inr ⟨rephraseMessage e, rfl⟩
    | returns r =>
      obtain ⟨sql, rest⟩ := r
      cases sql with
      | none => exact Or.inr ⟨rephraseMessage keyErrorText, rfl⟩
      | some s =>
        by_cases hc : s = "" ∨ wordCount s.data < 3
        · refine Or.inr ⟨clarificationMessage, ?_⟩
          simp only [write_query]
          rw [if_pos hc]
        · refine Or.inl ⟨⟨some s, rest⟩, s, ?_, rfl⟩
          simp only [write_query]
          rw [if_neg hc]
  · intro q e
    rfl

/-- C6, counterexample: a model result with the `SQL` field absent is
not rejected with the clarification envelope — the `result["SQL"]`
subscript raises `KeyError("SQL")`, which the `except` clause converts
to the rephrase envelope instead; this refutes the claimed "if and only
if". -/
theorem c6_missing_sql_gets_rephrase_envelope :
    (write_query "list all customer names" (ModelBehavior.returns ⟨none, []⟩)).1 =
      WqResult.err (rephraseMessage keyErrorText) ∧
    rephraseMessage keyErrorText ≠ clarificationMessage :=
  ⟨rfl, by decide⟩

/-- C6, amended: for a model result with the `SQL` field present, the
result is rejected with the clarification envelope exactly when the
field is empty or has fewer than 3 whitespace tokens, and is returned
unchanged exactly otherwise; a result with the field absent instead
yields the rephrase envelope embedding the `KeyError` text. -/
theorem c6_post_validation (q s : String) (rest : List (String × String)) :
    ((write_query q (ModelBehavior.returns ⟨some s, rest⟩)).1 =
        WqResult.err clarificationMessage ↔ (s = "" ∨ wordCount s.data < 3)) ∧
    ((write_query q (ModelBehavior.returns ⟨some s, rest⟩)).1 =
        WqResult.ok ⟨some s, rest⟩ ↔ ¬(s = "" ∨ wordCount s.data < 3)) ∧
    (write_query q (ModelBehavior.returns ⟨none, rest⟩)).1 =
      WqResult.err (rephraseMessage keyErrorText) := by
  refine ⟨?_, ?_, rfl⟩ <;>
  · by_cases hc : s = "" ∨ wordCount s.data < 3
    · simp only [write_query]
      rw [if_pos hc]
      simp [hc]
    · simp only [write_query]
      rw [if_neg hc]
      simp [hc]

/-- C7: `execute_query` never raises — when the store returns a raw
result it is wrapped under the `result` key; when the store raises with
text `e` the returned error envelope embeds `e` between the fixed
prefix and the schema-reference hint, and its message is non-empty. -/
theorem c7_execute_query_shape :
    (∀ (sql r : String), execute_query sql (StoreBehavior.returns r) = ExecResult.ok r) ∧
    (∀ (sql e : String),
        execute_query sql (StoreBehavior.raises e) = ExecResult.err (execFailMessage e) ∧
        (execFailMessage e).length ≠ 0) := by
  refine ⟨fun sql r => rfl, fun sql e => ⟨rfl, ?_⟩⟩
  unfold execFailMessage
  rw [String.length_append, String.length_append]
  rw [show ("Query execution failed: " : String).length = 24 from rfl]
  omega

/-- C8: every question whose whitespace-tokenized word count is below 4
is judged ambiguous immediately. -/
theorem c8_short_question_ambiguous (s : String) (h : wordCount s.data < 4) :
    is_ambiguous s = true := by
  simp only [is_ambiguous]
  rw [wordCount_lower, if_pos h]

/-- C8, witness: the empty string has 0 words and is judged
ambiguous. -/
theorem c8_short_question_ambiguous_witness :
    wordCount ("").data < 4 ∧ is_ambiguous "" = true :=
  ⟨by decide, c8_short_question_ambiguous "" (by decide)⟩

/-- C9, counterexample: in `"show me biggest 5 products"` the listed
ranking word `biggest` is immediately followed by a number, yet
`is_ambiguous` returns `true` — the numeric-limit pattern only covers
`top|best|bottom|highest|lowest|fastest`, not all ten listed terms. -/
theorem c9_biggest_numeric_not_clarifier :
    4 ≤ wordCount ("show me biggest 5 products").data ∧
    containsVague (lowerL ("show me biggest 5 products").data) = true ∧
    is_ambiguous "show me biggest 5 products" = true :=
  ⟨by decide, by decide, by decide⟩

/-- C9, amended: for every question with at least 4 words containing a
listed vague/ranking term, if the numeric-limit pattern of the source
matches (one of `top`, `best`, `bottom`, `highest`, `lowest`, `fastest`
followed by whitespace and a number), `is_ambiguous` returns `false`;
the other listed terms (`most`, `biggest`, `popular`, `trending`,
`leading`) do not trigger this clarifier. -/
theorem c9_numeric_limit_clarifies (s : String) (h : 4 ≤ wordCount s.data)
    (hv : containsVague (lowerL s.data) = true)
    (hn : hasNumericLimit (lowerL s.data) = true) : is_ambiguous s = false := by
  simp only [is_ambiguous]
  rw [wordCount_lower, if_neg (by omega), if_neg (by simp [hv])]
  simp [hn]

/-- C9, witness: `"show me top 5 products"` triggers the numeric-limit
clarifier and is judged not ambiguous. -/
theorem c9_numeric_limit_clarifies_witness :
    4 ≤ wordCount ("show me top 5 products").data ∧
    containsVague (lowerL ("show me top 5 products").data) = true ∧
    hasNumericLimit (lowerL ("show me top 5 products").data) = true ∧
    is_ambiguous "show me top 5 products" = false :=
  ⟨by decide, by decide, by decide,
    c9_numeric_limit_clarifies "show me top 5 products" (by decide) (by decide) (by decide)⟩

/-- C10, counterexample: in `"best pirates in the world"` the metric
term `rate` occurs only as a proper substring of `pirates` (not as a
whole word), yet it is treated as present and flips the verdict to
`false`; the sister question `"best sailors in the world"`, identical
except for the word carrying the substring, is judged `true`. -/
theorem c10_metric_substring_affects_verdict :
    containsWord ("rate").data (lowerL ("best pirates in the world").data) = false ∧
    hasMetricTerm (lowerL ("best pirates in the world").data) = true ∧
    is_ambiguous "best pirates in the world" = false ∧
    is_ambiguous "best sailors in the world" = true :=
  ⟨by decide, by decide, by decide, by decide⟩

/-- C10, amended: the vague/ranking-term scan is whole-word — it fires
exactly on occurrences with no word character adjacent on either side —
while the business-metric scan is a plain substring test: it fires
exactly on infix occurrences, so a metric term inside a longer word
(such as `rate` inside `pirates`) does count as a clarifier. -/
theorem c10_matching_discipline :
    (∀ l, containsVague l = true ↔ ∃ t, t ∈ vagueTermsL ∧ OccursWholeWord t l) ∧
    (∀ l, hasMetricTerm l = true ↔
        ∃ m, m ∈ metricTermsL ∧ ∃ pre post, l = pre ++ m ++ post) := by
  constructor
  · intro l
    unfold containsVague
    rw [List.any_eq_true]
    constructor
    · rintro ⟨t, ht, hw⟩
      have hne : t ≠ [] := by
        simp only [vagueTermsL, List.mem_cons, List.not_mem_nil, or_false] at ht
        rcases ht with rfl | rfl | rfl | rfl | rfl | rfl | rfl | rfl | rfl | rfl <;> decide
      exact ⟨t, ht, (containsWord_iff t hne l).mp hw⟩
    · rintro ⟨t, ht, hw⟩
      have hne : t ≠ [] := by
        simp only [vagueTermsL, List.mem_cons, List.not_mem_nil, or_false] at ht
        rcases ht with rfl | rfl | rfl | rfl | rfl | rfl | rfl | rfl | rfl | rfl <;> decide
      exact ⟨t, ht, (containsWord_iff t hne l).mpr hw⟩
  · intro l
    unfold hasMetricTerm
    rw [List.any_eq_true]
    constructor
    · rintro ⟨m, hm, hs⟩
      exact ⟨m, hm, (containsSub_iff m l).mp hs⟩
    · rintro ⟨m, hm, hs⟩
      exact ⟨m, hm, (containsSub_iff m l).mpr hs⟩

end NL2SQL
